import Mathlib

/-!
# Shallow embedding of the `ioc` Go package (berkaroad/ioc)

This file embeds the dependency-injection container of the repository:
the binding table, registration (`Register` / `addBinding`), resolution
(`Resolve` with parent delegation), `SetParent`, the injector (`Inject`
for functions and pointer-to-struct targets), and the singleton store
with its once-only initializer (`singletonContainer.Get` from
`singleton.go`).

Go's `reflect` machinery is modelled just deeply enough for the code
paths the container consults: a type carries its identity, its kind,
the kind of its pointee, and an assignability oracle; a value is either
the invalid zero `reflect.Value` or a typed reference.
-/

namespace Ioc

/-- Kinds of Go types, as consulted by the container
(`reflect.Interface`, `reflect.Pointer`, `reflect.Struct`,
`reflect.Func`, everything else). -/
inductive GoKind where
  | iface
  | pointer
  | strct
  | func
  | other
deriving DecidableEq, Repr

/-- Model of `reflect.Type`: an identity (`id`, Go type identity),
its `Kind()`, the `Kind()` of its `Elem()` when it is a pointer, and
`asgn`, the set of other type identities this type is assignable to
(Go's `AssignableTo`, which the embedding treats as type data). -/
structure GoType where
  id : Nat
  kind : GoKind
  elemKind : Option GoKind
  asgn : List Nat
deriving DecidableEq, Repr

/-- `a.AssignableTo b`: a type is assignable to itself and to every
identity recorded in its `asgn` set. -/
def GoType.AssignableTo (a b : GoType) : Bool :=
  a.id == b.id || b.id ∈ a.asgn

/-- Model of `reflect.Value`: the invalid zero value, or a typed
reference (`ref` is the reference identity of the underlying object). -/
inductive GoValue where
  | invalid
  | val (typ : GoType) (ref : Nat)
deriving DecidableEq, Repr

/-- `reflect.Value.IsValid`. -/
def GoValue.IsValid : GoValue → Bool
  | .invalid => false
  | .val _ _ => true

/-- Model of a `reflect.Value` holding a (candidate) factory function:
invalid, or a function value with the pieces of its type that
`addBinding` consults (`Kind() == Func`, `NumIn`, `NumOut`, `Out(0)`)
and the value its `Call(nil)[0]` produces. -/
inductive GoFuncValue where
  | invalid
  | fn (isFunc : Bool) (numIn : Nat) (numOut : Nat) (out0 : GoType) (result : GoValue)
deriving DecidableEq, Repr

/-- `IsValid` for the factory-holding `reflect.Value`. -/
def GoFuncValue.IsValid : GoFuncValue → Bool
  | .invalid => false
  | .fn _ _ _ _ _ => true

/-- `Call(nil)[0]` on the factory value (invalid factory never reaches
a call site in the embedded code paths; it yields the invalid value). -/
def GoFuncValue.call : GoFuncValue → GoValue
  | .invalid => .invalid
  | .fn _ _ _ _ result => result

/-- `serviceBinding` from `ioc.go`: service type, override flag,
singleton instance (invalid when absent) and transient instance
factory (invalid when absent). -/
structure serviceBinding where
  ServiceType : Option GoType
  CanOverride : Bool
  Instance : GoValue
  InstanceFactory : GoFuncValue
deriving DecidableEq, Repr

/-- The binding table of `defaultContainer` (`bindings sync.Map`),
modelled as an association list keyed by service type. -/
def BindingMap := List (GoType × serviceBinding)

/-- `sync.Map.Load`. -/
def loadB (m : BindingMap) (t : GoType) : Option serviceBinding :=
  match m with
  | [] => none
  | (k, v) :: rest => if k = t then some v else loadB rest t

/-- `sync.Map.Store`: replace the entry for the key, or append it. -/
def storeB (m : BindingMap) (t : GoType) (b : serviceBinding) : BindingMap :=
  match m with
  | [] => [(t, b)]
  | (k, v) :: rest => if k = t then (k, b) :: rest else (k, v) :: storeB rest t b

/-- `defaultContainer`: a binding table and a parent resolver that may
be nil. The two constructors model the `parent != nil` distinction of
the Go struct: `base` is a container with nil parent, `child` one with
a parent set (the parent is itself a container in this embedding). -/
inductive Container where
  | base (bindings : BindingMap)
  | child (bindings : BindingMap) (parent : Container)

/-- The binding table of a container. -/
def Container.bindings : Container → BindingMap
  | .base b => b
  | .child b _ => b

/-- The parent field of a container (`none` models nil). -/
def Container.parent : Container → Option Container
  | .base _ => none
  | .child _ p => some p

/-- Build a container from a binding table and an optional parent. -/
def Container.withParent (b : BindingMap) (p : Option Container) : Container :=
  match p with
  | none => .base b
  | some pc => .child b pc

/-- `defaultContainer.Resolve`: load the binding for the service type;
if its singleton instance is valid return it, otherwise call the
transient factory; when no binding exists, delegate to the parent when
one is set, else return the invalid value. -/
def Resolve : Container → GoType → GoValue
  | .base bindings, serviceType =>
    (match loadB bindings serviceType with
    | some binding =>
      if binding.Instance.IsValid then binding.Instance
      else binding.InstanceFactory.call
    | none => .invalid)
  | .child bindings parent, serviceType =>
    match loadB bindings serviceType with
    | some binding =>
      if binding.Instance.IsValid then binding.Instance
      else binding.InstanceFactory.call
    | none => Resolve parent serviceType

/-- `defaultContainer.SetParent`: plain field assignment
`c.parent = parent`. -/
def SetParent (c : Container) (parent : Option Container) : Container :=
  Container.withParent c.bindings parent

/-- `defaultContainer.addBinding`: validate the binding (non-null
service type; interface or pointer-to-struct shape; instance
assignable to the service type; factory a zero-argument single-result
function whose result is assignable), then `LoadOrStore`; when an
entry was already present, replace it exactly when the existing entry
has `CanOverride`. Returns the error (as in Go) together with the
resulting binding table of the receiver. -/
def addBinding (m : BindingMap) (binding : serviceBinding) :
    Option String × BindingMap :=
  match binding.ServiceType with
  | none => (some "type of service is null", m)
  | some st =>
    if ¬(st.kind = .iface ∨ (st.kind = .pointer ∧ st.elemKind = some .strct)) then
      (some "type of service should be an interface or *struct", m)
    else if binding.Instance.IsValid then
      match binding.Instance with
      | .invalid => (none, m)
      | .val ityp _ =>
        if ¬ ityp.AssignableTo st then
          (some "instance should implement the service", m)
        else
          match loadB m st with
          | some existsBinding =>
            if existsBinding.CanOverride then (none, storeB m st binding)
            else (none, m)
          | none => (none, storeB m st binding)
    else if binding.InstanceFactory.IsValid then
      match binding.InstanceFactory with
      | .invalid => (none, m)
      | .fn isFunc numIn numOut out0 _ =>
        if ¬(isFunc ∧ numIn = 0 ∧ numOut = 1 ∧ out0.AssignableTo st) then
          (some "type of instanceFactory should be a func with no params and return service", m)
        else
          match loadB m st with
          | some existsBinding =>
            if existsBinding.CanOverride then (none, storeB m st binding)
            else (none, m)
          | none => (none, storeB m st binding)
    else
      match loadB m st with
      | some existsBinding =>
        if existsBinding.CanOverride then (none, storeB m st binding)
        else (none, m)
      | none => (none, storeB m st binding)

/-- A non-nil `any` argument holding a singleton instance: its dynamic
type, its reference identity, and the parameter types of its
recognized initializer method when it has one (`Initialize(...)`;
recorded as instance data — the code in `src/ioc.go` never reads it). -/
structure GoInstance where
  typ : GoType
  ref : Nat
  initParams : List GoType
deriving DecidableEq, Repr

/-- `reflect.ValueOf` on a non-nil instance argument. -/
def GoInstance.valueOf (i : GoInstance) : GoValue := .val i.typ i.ref

/-- A non-nil `any` argument holding a (candidate) factory. -/
structure GoFunc where
  isFunc : Bool
  numIn : Nat
  numOut : Nat
  out0 : GoType
  result : GoValue
deriving DecidableEq, Repr

/-- `reflect.ValueOf` on a non-nil factory argument. -/
def GoFunc.valueOf (f : GoFunc) : GoFuncValue :=
  .fn f.isFunc f.numIn f.numOut f.out0 f.result

/-- `defaultContainer.Register`: error when both the instance and the
factory are null; otherwise build a `serviceBinding` from the instance
when one is supplied (the factory is ignored in that case), else from
the factory, and hand it to `addBinding`. Returns the error together
with the resulting container. -/
def Register (c : Container) (serviceType : Option GoType) (canOverride : Bool)
    (singletonInstance : Option GoInstance) (transientInstanceFactory : Option GoFunc) :
    Option String × Container :=
  if singletonInstance = none ∧ transientInstanceFactory = none then
    (some "both instance and instanceFactory are null", c)
  else
    match singletonInstance with
    | some inst =>
      let r := addBinding c.bindings
        { ServiceType := serviceType, CanOverride := canOverride,
          Instance := inst.valueOf, InstanceFactory := .invalid }
      (r.1, Container.withParent r.2 c.parent)
    | none =>
      match transientInstanceFactory with
      | some fac =>
        let r := addBinding c.bindings
          { ServiceType := serviceType, CanOverride := canOverride,
            Instance := .invalid, InstanceFactory := fac.valueOf }
        (r.1, Container.withParent r.2 c.parent)
      | none => (some "both instance and instanceFactory are null", c)

/-- The distinguished `ioc.Resolver` interface type
(`resolverType = reflect.TypeOf((*Resolver)(nil)).Elem()`). -/
def resolverType : GoType :=
  { id := 0, kind := .iface, elemKind := none, asgn := [] }

/-- The function branch of `Inject`: for each declared parameter type
resolve it from the container; on the first invalid resolution the
code panics (modelled as `none`) before the target is called; when all
resolve, the target is called with the resolved arguments (modelled as
`some` of the argument list). -/
def injectFunc (c : Container) (paramTypes : List GoType) : Option (List GoValue) :=
  match paramTypes with
  | [] => some []
  | argType :: rest =>
    let v := Resolve c argType
    if v.IsValid then
      match injectFunc c rest with
      | some args => some (v :: args)
      | none => none
    else none

/-- A struct field as `Inject` sees it: its declared type, the value
of its `ioc-inject` tag when present, whether it is embedded
(`Anonymous`), and its current value (the invalid value models a
zero/nil field). -/
structure StructField where
  typ : GoType
  tag : Option String
  anonymous : Bool
  value : GoValue
deriving DecidableEq, Repr

/-- One iteration of the struct branch of `Inject`: the field is
injectable when its type is `ioc.Resolver` or its `ioc-inject` tag is
`"true"`; an injectable field is assigned the resolved value when
resolution is valid, and is left unchanged otherwise. -/
def injectField (c : Container) (field : StructField) : StructField :=
  let canInject := field.typ = resolverType ∨ field.tag = some "true"
  if canInject then
    let fieldVal := Resolve c field.typ
    if fieldVal.IsValid then { field with value := fieldVal }
    else field
  else field

/-- The pointer-to-struct branch of `Inject`: every field of the
struct is processed in turn by `injectField`. -/
def injectStruct (c : Container) (fields : List StructField) : List StructField :=
  fields.map (injectField c)

/-!
## The singleton store of `singleton.go`

`singletonContainer` keeps, per service type, a `stateValue`: the
stored instance and an `isInitialized` flag. `Get` runs the instance's
initializer through the supplied invoker exactly when the entry is not
yet initialized, the invoker is non-nil and the instance implements
`Initializer`, and then marks the entry initialized.
-/

/-- `stateValue` from `singleton.go`: the initialization flag, the
stored value, and whether the stored value implements `Initializer`
(the result of the `val.Interface().(Initializer)` type assertion). -/
structure stateValue where
  isInitialized : Bool
  val : GoValue
  isInitializer : Bool
deriving DecidableEq, Repr

/-- The `valuemapper` of `singletonContainer`. -/
def ValueMap := List (GoType × stateValue)

/-- Map lookup on the `valuemapper`. -/
def loadSV (m : ValueMap) (t : GoType) : Option stateValue :=
  match m with
  | [] => none
  | (k, v) :: rest => if k = t then some v else loadSV rest t

/-- In-place update of the `valuemapper` entry (the Go map stores a
pointer to the `stateValue`, so mutating it persists). -/
def storeSV (m : ValueMap) (t : GoType) (sv : stateValue) : ValueMap :=
  match m with
  | [] => [(t, sv)]
  | (k, v) :: rest => if k = t then (k, sv) :: rest else (k, v) :: storeSV rest t sv

/-- `singletonContainer.Get`: look up the entry for the type; when it
exists, is not yet initialized, an invoker was supplied and the stored
value implements `Initializer`, invoke the initializer and set the
flag; return the stored value. The result is the updated map, the
returned value, and the number of initializer invocations this call
performed (0 or 1). -/
def singletonGet (m : ValueMap) (typ : GoType) (hasInvoker : Bool) :
    ValueMap × GoValue × Nat :=
  match loadSV m typ with
  | some stateVal =>
    if ¬stateVal.isInitialized ∧ hasInvoker then
      if stateVal.isInitializer then
        (storeSV m typ { stateVal with isInitialized := true }, stateVal.val, 1)
      else (m, stateVal.val, 0)
    else (m, stateVal.val, 0)
  | none => (m, .invalid, 0)

/-- Modelled from the spec: the container's `Resolve` path for
singleton bindings — the container method that wires
`singletonContainer.Get` to the container's invoker is not among the
source files; per the spec's Lifecycle Resolver, resolution of a
singleton consults the singleton store with the container's (non-nil)
initializer invoker (spec §4.2). -/
def resolveSingleton (m : ValueMap) (typ : GoType) : ValueMap × GoValue × Nat :=
  singletonGet m typ true

/-- Total number of initializer invocations performed by `n`
successive singleton resolutions of the same type, threading the
store's state. -/
def resolveSingletonCount (m : ValueMap) (typ : GoType) : Nat → Nat
  | 0 => 0
  | n + 1 =>
    let r := resolveSingleton m typ
    r.2.2 + resolveSingletonCount r.1 typ n

/-!
## Concrete fixtures for witnesses and counterexamples
-/

/-- Fixture: a pointer-to-struct service type with the given identity. -/
def ptrStructType (n : Nat) : GoType :=
  { id := n, kind := .pointer, elemKind := some .strct, asgn := [] }

/-- Fixture: an interface service type with the given identity. -/
def ifaceType (n : Nat) : GoType :=
  { id := n, kind := .iface, elemKind := none, asgn := [] }

/-!
## Helper lemmas
-/

theorem loadB_storeB_self (m : BindingMap) (t : GoType) (b : serviceBinding) :
    loadB (storeB m t b) t = some b := by
  induction m with
  | nil => simp [storeB, loadB]
  | cons hd tl ih =>
    obtain ⟨k, v⟩ := hd
    by_cases hk : k = t
    · simp [storeB, loadB, hk]
    · simp [storeB, loadB, hk, ih]

theorem loadSV_storeSV_self (m : ValueMap) (t : GoType) (sv : stateValue) :
    loadSV (storeSV m t sv) t = some sv := by
  induction m with
  | nil => simp [storeSV, loadSV]
  | cons hd tl ih =>
    obtain ⟨k, v⟩ := hd
    by_cases hk : k = t
    · simp [storeSV, loadSV, hk]
    · simp [storeSV, loadSV, hk, ih]

/-- Resolution hits the local binding table first: when a binding for
the type is present, the parent (set or not) is never consulted. -/
theorem Resolve_withParent_found (b : BindingMap) (p : Option Container) (t : GoType)
    (bnd : serviceBinding) (h : loadB b t = some bnd) :
    Resolve (Container.withParent b p) t =
      (if bnd.Instance.IsValid then bnd.Instance else bnd.InstanceFactory.call) := by
  cases p <;> simp [Container.withParent, Resolve, h]

/-- Reading back the binding table of a rebuilt container. -/
theorem bindings_withParent (b : BindingMap) (p : Option Container) :
    (Container.withParent b p).bindings = b := by
  cases p <;> rfl

/-- Rebuilding a container from its own bindings and parent yields the
container itself. -/
theorem withParent_bindings_parent (c : Container) :
    Container.withParent c.bindings c.parent = c := by
  cases c <;> rfl

/-- An already-initialized singleton entry: every further resolution
performs no initializer invocation and leaves the store unchanged. -/
theorem resolveSingleton_initialized (m : ValueMap) (t : GoType) (sv : stateValue)
    (hload : loadSV m t = some sv) (hinit : sv.isInitialized = true) :
    resolveSingleton m t = (m, sv.val, 0) := by
  simp [resolveSingleton, singletonGet, hload, hinit]

theorem resolveSingletonCount_initialized (m : ValueMap) (t : GoType) (sv : stateValue)
    (hload : loadSV m t = some sv) (hinit : sv.isInitialized = true) (k : Nat) :
    resolveSingletonCount m t k = 0 := by
  induction k with
  | zero => rfl
  | succ k ih =>
    rw [resolveSingletonCount]
    rw [resolveSingleton_initialized m t sv hload hinit]
    simpa using ih

/-- Full case analysis of `addBinding`: either it reports an error and
leaves the table untouched, or it reports none and performs exactly
the `LoadOrStore`-plus-override update on the (non-null) service
type's entry. -/
theorem addBinding_spec (m : BindingMap) (b : serviceBinding) :
    ((addBinding m b).1 ≠ none ∧ (addBinding m b).2 = m) ∨
    ((addBinding m b).1 = none ∧
      ∃ st, b.ServiceType = some st ∧
        (addBinding m b).2 = (match loadB m st with
          | some eb => if eb.CanOverride then storeB m st b else m
          | none => storeB m st b)) := by
  obtain ⟨st?, co, iv, fv⟩ := b
  cases st? with
  | none => exact Or.inl (by simp [addBinding])
  | some st =>
    simp only [addBinding]
    split
    · exact Or.inl (by simp)
    · split
      · cases iv with
        | invalid => exact Or.inr ⟨rfl, st, rfl, by simp_all [GoValue.IsValid]⟩
        | val ityp ref =>
          simp only
          split
          · exact Or.inl (by simp)
          · refine Or.inr ⟨?_, st, rfl, ?_⟩ <;>
              rcases hload : loadB m st with _ | eb <;> simp [hload] <;>
              rcases hco : eb.CanOverride <;> simp [hco]
      · split
        · cases fv with
          | invalid => exact Or.inr ⟨rfl, st, rfl, by simp_all [GoFuncValue.IsValid]⟩
          | fn isF nIn nOut o0 res =>
            simp only
            split
            · exact Or.inl (by simp)
            · refine Or.inr ⟨?_, st, rfl, ?_⟩ <;>
                rcases hload : loadB m st with _ | eb <;> simp [hload] <;>
                rcases hco : eb.CanOverride <;> simp [hco]
        · refine Or.inr ⟨?_, st, rfl, ?_⟩ <;>
            rcases hload : loadB m st with _ | eb <;> simp [hload] <;>
            rcases hco : eb.CanOverride <;> simp [hco]

/-- `addBinding` mutates the binding table only when it reports no
error: every error return happens before `LoadOrStore`. -/
theorem addBinding_error_keeps (m : BindingMap) (b : serviceBinding) (e : String)
    (herr : (addBinding m b).1 = some e) : (addBinding m b).2 = m := by
  rcases addBinding_spec m b with ⟨_, hkeep⟩ | ⟨hnone, _⟩
  · exact hkeep
  · rw [hnone] at herr; cases herr

/-- The error messages `addBinding` can produce. -/
theorem addBinding_msgs (m : BindingMap) (b : serviceBinding) :
    (addBinding m b).1 = none ∨
    (addBinding m b).1 = some "type of service is null" ∨
    (addBinding m b).1 = some "type of service should be an interface or *struct" ∨
    (addBinding m b).1 = some "instance should implement the service" ∨
    (addBinding m b).1 = some "type of instanceFactory should be a func with no params and return service" := by
  obtain ⟨st?, co, iv, fv⟩ := b
  cases st? with
  | none => simp [addBinding]
  | some st =>
    simp only [addBinding]
    split
    · simp
    · split
      · cases iv with
        | invalid => simp [GoValue.IsValid] at *
        | val ityp ref =>
          simp only
          split
          · simp
          · rcases hload : loadB m st with _ | eb <;> simp [hload] <;>
              rcases hco : eb.CanOverride <;> simp [hco]
      · split
        · cases fv with
          | invalid => simp [GoFuncValue.IsValid] at *
          | fn isF nIn nOut o0 res =>
            simp only
            split
            · simp
            · rcases hload : loadB m st with _ | eb <;> simp [hload] <;>
                rcases hco : eb.CanOverride <;> simp [hco]
        · rcases hload : loadB m st with _ | eb <;> simp [hload] <;>
            rcases hco : eb.CanOverride <;> simp [hco]

/-- `addBinding` never reports the missing-instance error: that
message is produced only by `Register` itself. -/
theorem addBinding_ne_missing (m : BindingMap) (b : serviceBinding) :
    (addBinding m b).1 ≠ some "both instance and instanceFactory are null" := by
  rcases addBinding_msgs m b with h | h | h | h | h <;> rw [h] <;> simp

/-!
## Claim theorems
-/

/-- C6: during function injection, the target is invoked (the
resolution loop yields an argument list) if and only if every declared
parameter type resolves to a valid value; any unresolvable parameter
aborts the injection before the call. -/
theorem inject_func_invoked_iff_all_resolve (c : Container) (ps : List GoType) :
    (injectFunc c ps).isSome = true ↔ ∀ p ∈ ps, (Resolve c p).IsValid = true := by
  induction ps with
  | nil => simp [injectFunc]
  | cons p rest ih =>
    by_cases hv : (Resolve c p).IsValid = true
    · constructor
      · intro h q hq
        rcases List.mem_cons.mp hq with rfl | hq'
        · exact hv
        · apply ih.mp _ q hq'
          simp only [injectFunc, hv, if_true] at h
          cases hrest : injectFunc c rest with
          | none => rw [hrest] at h; simp at h
          | some args => simp [hrest]
      · intro h
        have hrest := ih.mpr (fun q hq => h q (List.mem_cons_of_mem _ hq))
        cases hrestEq : injectFunc c rest with
        | none => rw [hrestEq] at hrest; simp at hrest
        | some args => simp [injectFunc, hv, hrestEq]
    · constructor
      · intro h
        simp only [injectFunc, hv, if_false] at h
        simp at h
      · intro h
        exact absurd (h p (List.mem_cons_self p rest)) hv

/-- C7: struct injection tolerates missing dependencies: the pass
always processes every field (the output has one entry per field, each
the result of processing that field alone), and a field whose declared
type fails to resolve is left exactly as it was — in particular at its
zero value when it was zero. -/
theorem inject_struct_tolerates_missing (c : Container) (fields : List StructField)
    (i : Nat) (hi : i < fields.length)
    (hmiss : (Resolve c (fields.get ⟨i, hi⟩).typ).IsValid = false) :
    (injectStruct c fields).length = fields.length ∧
    (injectStruct c fields).get ⟨i, by simpa [injectStruct] using hi⟩ = fields.get ⟨i, hi⟩ ∧
    ∀ j (hj : j < fields.length),
      (injectStruct c fields).get ⟨j, by simpa [injectStruct] using hj⟩ =
        injectField c (fields.get ⟨j, hj⟩) := by
  refine ⟨by simp [injectStruct], ?_, ?_⟩
  · have : (injectStruct c fields).get ⟨i, by simpa [injectStruct] using hi⟩ =
        injectField c (fields.get ⟨i, hi⟩) := by
      simp [injectStruct]
    rw [this]
    simp only [List.get_eq_getElem] at hmiss ⊢
    by_cases hcan : fields[i].typ = resolverType ∨ fields[i].tag = some "true" <;>
      simp [injectField, hcan, hmiss]
  · intro j hj
    simp [injectStruct]

/-- C7 witness: a container with no bindings, a tagged field of an
unregistered type: the pass leaves it at its zero value. -/
theorem inject_struct_tolerates_missing_witness :
    ((0 : Nat) < 1) ∧
    (injectStruct (.base [])
        [⟨⟨3, .iface, none, []⟩, some "true", false, .invalid⟩]).length = 1 ∧
    (injectStruct (.base [])
        [⟨⟨3, .iface, none, []⟩, some "true", false, .invalid⟩]).get ⟨0, by decide⟩ =
      (⟨⟨3, .iface, none, []⟩, some "true", false, .invalid⟩ : StructField) := by
  refine ⟨by decide, ?_, ?_⟩
  · exact (inject_struct_tolerates_missing (.base [])
      [⟨⟨3, .iface, none, []⟩, some "true", false, .invalid⟩] 0 (by decide) (by decide)).1
  · exact (inject_struct_tolerates_missing (.base [])
      [⟨⟨3, .iface, none, []⟩, some "true", false, .invalid⟩] 0 (by decide) (by decide)).2.1

/-- C1: an identity registered with a singleton instance resolves, on
every one of arbitrarily many `Resolve` calls, to the identical
instance reference that was supplied at registration. -/
theorem singleton_resolve_identical (c c' : Container) (t : GoType) (o : Bool)
    (inst : GoInstance) (n : Nat)
    (hfree : loadB c.bindings t = none)
    (hreg : Register c (some t) o (some inst) none = (none, c')) :
    Resolve c' t = inst.valueOf ∧
    (List.range n).map (fun _ => Resolve c' t) = List.replicate n inst.valueOf := by
  simp only [Register, reduceCtorEq, false_and, if_false, Prod.mk.injEq] at hreg
  obtain ⟨h1, h2⟩ := hreg
  rcases addBinding_spec c.bindings
      { ServiceType := some t, CanOverride := o, Instance := inst.valueOf,
        InstanceFactory := .invalid } with ⟨hne, _⟩ | ⟨_, st, hst, heq⟩
  · exact absurd h1 hne
  · obtain rfl : t = st := by simpa using hst
    rw [hfree] at heq
    have hres : Resolve c' t = inst.valueOf := by
      rw [← h2, heq]
      rw [Resolve_withParent_found _ _ _ _ (loadB_storeB_self _ _ _)]
      simp [GoInstance.valueOf, GoValue.IsValid]
    exact ⟨hres, by simp [hres, List.map_const', List.length_range]⟩

/-- C1 witness: a fresh container, one singleton registration,
three resolutions all returning the registered reference. -/
theorem singleton_resolve_identical_witness :
    loadB (Container.base []).bindings (ptrStructType 1) = none ∧
    Resolve (Container.base
        [(ptrStructType 1,
          { ServiceType := some (ptrStructType 1), CanOverride := false,
            Instance := .val (ptrStructType 1) 5, InstanceFactory := .invalid })])
      (ptrStructType 1) = GoInstance.valueOf ⟨ptrStructType 1, 5, []⟩ ∧
    (List.range 3).map (fun _ => Resolve (Container.base
        [(ptrStructType 1,
          { ServiceType := some (ptrStructType 1), CanOverride := false,
            Instance := .val (ptrStructType 1) 5, InstanceFactory := .invalid })])
      (ptrStructType 1)) = List.replicate 3 (GoInstance.valueOf ⟨ptrStructType 1, 5, []⟩) := by
  refine ⟨rfl, ?_⟩
  exact singleton_resolve_identical (Container.base []) _ (ptrStructType 1) false
    ⟨ptrStructType 1, 5, []⟩ 3 rfl rfl

/-- C2: a singleton store entry whose instance implements the
initializer protocol has its initializer invoked exactly once, at the
first resolution; over any `n ≥ 1` successive resolutions the total
number of initializer invocations is one. -/
theorem singleton_initializer_once (m : ValueMap) (t : GoType) (sv : stateValue) (n : Nat)
    (hload : loadSV m t = some sv) (hinit : sv.isInitialized = false)
    (himpl : sv.isInitializer = true) (hn : 1 ≤ n) :
    (resolveSingleton m t).2.2 = 1 ∧ resolveSingletonCount m t n = 1 := by
  have hfirst : resolveSingleton m t =
      (storeSV m t { sv with isInitialized := true }, sv.val, 1) := by
    simp [resolveSingleton, singletonGet, hload, hinit, himpl]
  refine ⟨by rw [hfirst], ?_⟩
  obtain ⟨k, rfl⟩ : ∃ k, n = k + 1 := ⟨n - 1, by omega⟩
  rw [resolveSingletonCount, hfirst]
  simp [resolveSingletonCount_initialized _ t { sv with isInitialized := true }
    (loadSV_storeSV_self m t _) rfl k]

/-- C2 witness: one uninitialized initializer-carrying entry, three
resolutions, one invocation in total (performed by the first). -/
theorem singleton_initializer_once_witness :
    loadSV [(ifaceType 2, ⟨false, .val (ifaceType 2) 3, true⟩)] (ifaceType 2) =
      some ⟨false, .val (ifaceType 2) 3, true⟩ ∧
    (resolveSingleton [(ifaceType 2, ⟨false, .val (ifaceType 2) 3, true⟩)]
      (ifaceType 2)).2.2 = 1 ∧
    resolveSingletonCount [(ifaceType 2, ⟨false, .val (ifaceType 2) 3, true⟩)]
      (ifaceType 2) 3 = 1 := by
  have h := singleton_initializer_once
    [(ifaceType 2, ⟨false, .val (ifaceType 2) 3, true⟩)] (ifaceType 2)
    ⟨false, .val (ifaceType 2) 3, true⟩ 3 rfl rfl rfl (by omega)
  exact ⟨rfl, h.1, h.2⟩

/-- C3: registering over an already-bound identity: the stored binding
is replaced exactly when the existing binding was marked overridable;
otherwise the table keeps the existing binding and the new
registration is silently dropped. -/
theorem register_override_iff (c c' : Container) (t : GoType) (o2 : Bool)
    (inst : GoInstance) (eb : serviceBinding)
    (hbound : loadB c.bindings t = some eb)
    (hreg : Register c (some t) o2 (some inst) none = (none, c')) :
    loadB c'.bindings t =
      some (if eb.CanOverride then
        { ServiceType := some t, CanOverride := o2, Instance := inst.valueOf,
          InstanceFactory := .invalid }
      else eb) ∧
    (eb.CanOverride = false → c'.bindings = c.bindings) := by
  simp only [Register, reduceCtorEq, false_and, if_false, Prod.mk.injEq] at hreg
  obtain ⟨h1, h2⟩ := hreg
  rcases addBinding_spec c.bindings
      { ServiceType := some t, CanOverride := o2, Instance := inst.valueOf,
        InstanceFactory := .invalid } with ⟨hne, _⟩ | ⟨_, st, hst, heq⟩
  · exact absurd h1 hne
  · obtain rfl : t = st := by simpa using hst
    rw [hbound] at heq
    have hbind : c'.bindings =
        (if eb.CanOverride = true then
          storeB c.bindings t
            { ServiceType := some t, CanOverride := o2, Instance := inst.valueOf,
              InstanceFactory := .invalid }
        else c.bindings) := by
      rw [← h2, bindings_withParent, heq]
    cases hco : eb.CanOverride with
    | false =>
      simp only [hco, Bool.false_eq_true, if_false] at hbind ⊢
      exact ⟨by rw [hbind]; exact hbound, fun _ => hbind⟩
    | true =>
      simp only [hco, eq_self_iff_true, if_true] at hbind ⊢
      exact ⟨by rw [hbind]; exact loadB_storeB_self _ _ _, fun h => nomatch h⟩

/-- C3 witness: an overridable binding replaced by a later
registration for the same identity. -/
theorem register_override_iff_witness :
    loadB (Container.base [(ifaceType 4,
        { ServiceType := some (ifaceType 4), CanOverride := true,
          Instance := .val (ifaceType 4) 5, InstanceFactory := .invalid })]).bindings
      (ifaceType 4) =
      some { ServiceType := some (ifaceType 4), CanOverride := true,
             Instance := .val (ifaceType 4) 5, InstanceFactory := .invalid } ∧
    loadB (Register (Container.base [(ifaceType 4,
        { ServiceType := some (ifaceType 4), CanOverride := true,
          Instance := .val (ifaceType 4) 5, InstanceFactory := .invalid })])
      (some (ifaceType 4)) false
      (some ⟨⟨40, .pointer, some .strct, [4]⟩, 6, []⟩) none).2.bindings (ifaceType 4) =
      some { ServiceType := some (ifaceType 4), CanOverride := false,
             Instance := .val ⟨40, .pointer, some .strct, [4]⟩ 6,
             InstanceFactory := .invalid } := by
  have h := register_override_iff
    (Container.base [(ifaceType 4,
        { ServiceType := some (ifaceType 4), CanOverride := true,
          Instance := .val (ifaceType 4) 5, InstanceFactory := .invalid })]) _
    (ifaceType 4) false ⟨⟨40, .pointer, some .strct, [4]⟩, 6, []⟩
    { ServiceType := some (ifaceType 4), CanOverride := true,
      Instance := .val (ifaceType 4) 5, InstanceFactory := .invalid } rfl rfl
  exact ⟨rfl, h.1⟩

/-- C4 (code bug evidence): `SetParent` is a plain field assignment.
A service reachable only through the current parent becomes
unreachable after `SetParent(nil)` and likewise after setting a
different parent — the previous parent is dropped, not preserved, and
the repository's own tests (`TestSetParent`) assert the opposite. -/
theorem set_parent_replaces_unconditionally :
    Resolve (Container.child [] (Container.base
      [(ifaceType 6, { ServiceType := some (ifaceType 6), CanOverride := false,
                       Instance := .val (ifaceType 6) 9, InstanceFactory := .invalid })]))
      (ifaceType 6) = .val (ifaceType 6) 9 ∧
    SetParent (Container.child [] (Container.base
      [(ifaceType 6, { ServiceType := some (ifaceType 6), CanOverride := false,
                       Instance := .val (ifaceType 6) 9, InstanceFactory := .invalid })]))
      none = Container.base [] ∧
    Resolve (SetParent (Container.child [] (Container.base
      [(ifaceType 6, { ServiceType := some (ifaceType 6), CanOverride := false,
                       Instance := .val (ifaceType 6) 9, InstanceFactory := .invalid })]))
      none) (ifaceType 6) = .invalid ∧
    Resolve (SetParent (Container.child [] (Container.base
      [(ifaceType 6, { ServiceType := some (ifaceType 6), CanOverride := false,
                       Instance := .val (ifaceType 6) 9, InstanceFactory := .invalid })]))
      (some (Container.base []))) (ifaceType 6) = .invalid :=
  ⟨rfl, rfl, rfl, rfl⟩

/-- C5 (code bug evidence): `Register` performs no initializer
probing: registering a singleton whose initializer's parameter list
contains the very identity being registered succeeds (no error), and
the first resolution simply returns the instance — while the
repository's own tests (`TestAddSingleton`, cycle-reference cases)
expect such a registration to fail. -/
theorem cyclic_initializer_registration_succeeds :
    (ptrStructType 9 ∈
      (⟨ptrStructType 9, 1, [ptrStructType 9]⟩ : GoInstance).initParams) ∧
    (Register (Container.base []) (some (ptrStructType 9)) false
      (some ⟨ptrStructType 9, 1, [ptrStructType 9]⟩) none).1 = none ∧
    Resolve (Register (Container.base []) (some (ptrStructType 9)) false
      (some ⟨ptrStructType 9, 1, [ptrStructType 9]⟩) none).2 (ptrStructType 9) =
      .val (ptrStructType 9) 1 :=
  ⟨by simp, rfl, rfl⟩

/-- C8 counterexample: the struct branch of `Inject` skips neither
embedded fields nor fields already holding a non-zero value: an
anonymous, tagged field with a non-zero value and a resolvable type is
overwritten with the resolved value. -/
theorem inject_struct_overwrites_nonzero_embedded :
    (⟨ifaceType 3, some "true", true, .val (ifaceType 3) 7⟩ : StructField).anonymous
      = true ∧
    (⟨ifaceType 3, some "true", true, .val (ifaceType 3) 7⟩ : StructField).value
      ≠ .invalid ∧
    injectStruct (Container.base [(ifaceType 3,
        { ServiceType := some (ifaceType 3), CanOverride := false,
          Instance := .val (ifaceType 3) 42, InstanceFactory := .invalid })])
      [⟨ifaceType 3, some "true", true, .val (ifaceType 3) 7⟩] =
      [⟨ifaceType 3, some "true", true, .val (ifaceType 3) 42⟩] :=
  ⟨rfl, by simp, rfl⟩

/-- C8 as amended: injectability depends only on the field's declared
type being `ioc.Resolver` or its `ioc-inject` tag being `"true"`; an
injectable field whose type resolves is assigned the resolved value
regardless of being embedded or already non-zero, and every other
field is left unchanged. -/
theorem inject_struct_assigns_injectable (c : Container) (fields : List StructField)
    (i : Nat) (hi : i < fields.length)
    (hcan : fields[i].typ = resolverType ∨ fields[i].tag = some "true")
    (hres : (Resolve c fields[i].typ).IsValid = true) :
    (injectStruct c fields).get ⟨i, by simpa [injectStruct] using hi⟩ =
      { fields[i] with value := Resolve c fields[i].typ } := by
  have hstep : (injectStruct c fields).get ⟨i, by simpa [injectStruct] using hi⟩ =
      injectField c (fields.get ⟨i, hi⟩) := by simp [injectStruct]
  rw [hstep]
  simp only [List.get_eq_getElem]
  simp [injectField, hcan, hres]

/-- C8 amended-claim witness: the embedded, non-zero, tagged field of
the counterexample is assigned by the rule of the amended claim. -/
theorem inject_struct_assigns_injectable_witness :
    ((⟨ifaceType 3, some "true", true, .val (ifaceType 3) 7⟩ : StructField).typ
        = resolverType ∨
      (⟨ifaceType 3, some "true", true, .val (ifaceType 3) 7⟩ : StructField).tag
        = some "true") ∧
    (injectStruct (Container.base [(ifaceType 3,
        { ServiceType := some (ifaceType 3), CanOverride := false,
          Instance := .val (ifaceType 3) 42, InstanceFactory := .invalid })])
      [⟨ifaceType 3, some "true", true, .val (ifaceType 3) 7⟩]).get ⟨0, by decide⟩ =
      ⟨ifaceType 3, some "true", true, .val (ifaceType 3) 42⟩ := by
  refine ⟨Or.inr rfl, ?_⟩
  exact inject_struct_assigns_injectable (Container.base [(ifaceType 3,
      { ServiceType := some (ifaceType 3), CanOverride := false,
        Instance := .val (ifaceType 3) 42, InstanceFactory := .invalid })])
    [⟨ifaceType 3, some "true", true, .val (ifaceType 3) 7⟩] 0 (by decide)
    (Or.inr rfl) rfl

/-- C9 counterexample: supplying both a singleton instance and a
transient factory (so not exactly one argument) raises no error at
all: the instance silently takes precedence and is stored. -/
theorem register_both_supplied_no_error :
    (Register (Container.base []) (some (ptrStructType 7)) false
      (some ⟨ptrStructType 7, 5, []⟩)
      (some ⟨true, 0, 1, ptrStructType 7, .val (ptrStructType 7) 9⟩)).1 = none ∧
    loadB (Register (Container.base []) (some (ptrStructType 7)) false
      (some ⟨ptrStructType 7, 5, []⟩)
      (some ⟨true, 0, 1, ptrStructType 7, .val (ptrStructType 7) 9⟩)).2.bindings
      (ptrStructType 7) =
      some { ServiceType := some (ptrStructType 7), CanOverride := false,
             Instance := .val (ptrStructType 7) 5, InstanceFactory := .invalid } :=
  ⟨rfl, rfl⟩

/-- C9 as amended: `Register` reports the missing-instance error
exactly when both the instance and the factory are null; whenever at
least one is supplied — including both at once — that error is not
raised. -/
theorem register_missing_instance_iff (c : Container) (t : Option GoType) (o : Bool)
    (inst : Option GoInstance) (fac : Option GoFunc) :
    (Register c t o inst fac).1 = some "both instance and instanceFactory are null" ↔
      inst = none ∧ fac = none := by
  cases inst with
  | some i =>
    simp only [Register, reduceCtorEq, false_and, if_false]
    constructor
    · intro h; exact absurd h (addBinding_ne_missing _ _)
    · intro h; simp at h
  | none =>
    cases fac with
    | some f =>
      simp only [Register, reduceCtorEq, and_false, if_false]
      constructor
      · intro h; exact absurd h (addBinding_ne_missing _ _)
      · intro h; simp at h
    | none => simp [Register]

/-- C10: whenever `Register` reports an error, the container — its
binding table included — is left completely unchanged, so the failed
registration is invisible to every later `Resolve`. -/
theorem register_error_invisible (c : Container) (t : Option GoType) (o : Bool)
    (inst : Option GoInstance) (fac : Option GoFunc) (e : String)
    (herr : (Register c t o inst fac).1 = some e) :
    (Register c t o inst fac).2 = c := by
  cases inst with
  | some i =>
    simp only [Register, reduceCtorEq, false_and, if_false] at herr ⊢
    rw [addBinding_error_keeps _ _ e herr, withParent_bindings_parent]
  | none =>
    cases fac with
    | some f =>
      simp only [Register, reduceCtorEq, and_false, if_false] at herr ⊢
      rw [addBinding_error_keeps _ _ e herr, withParent_bindings_parent]
    | none => rfl

/-- C10 witness: a failing registration (both arguments null) whose
resulting container is the unchanged input container. -/
theorem register_error_invisible_witness :
    (Register (Container.base []) none false none none).1 =
      some "both instance and instanceFactory are null" ∧
    (Register (Container.base []) none false none none).2 = Container.base [] :=
  ⟨rfl, register_error_invisible (Container.base []) none false none none _ rfl⟩

end Ioc
